import Mathlib

/-!
Shallow embedding of the RoadRunner backend controllers (chat room identity,
chat message paging, order-request state machine, order listing) together with
proofs about the embedded operations.

User identifiers arrive as JSON integers; the controllers coerce them with the
unary `+` operator, so they are modelled directly as `Nat`.  Services that are
not part of the controller sources are modelled from the specification; each
such definition says so in its doc comment.
-/

namespace RoadRunner

instance {ε α : Type} [DecidableEq ε] [DecidableEq α] : DecidableEq (Except ε α)
  | Except.error e₁, Except.error e₂ =>
    match decEq e₁ e₂ with
    | isTrue h => isTrue (h ▸ rfl)
    | isFalse h => isFalse fun hc => h (Except.error.inj hc)
  | Except.error _, Except.ok _ => isFalse fun hc => Except.noConfusion hc
  | Except.ok _, Except.error _ => isFalse fun hc => Except.noConfusion hc
  | Except.ok a₁, Except.ok a₂ =>
    match decEq a₁ a₂ with
    | isTrue h => isTrue (h ▸ rfl)
    | isFalse h => isFalse fun hc => h (Except.ok.inj hc)

/-! ### Decimal string conversion (JS `ToString` on integer ids)

`Array.prototype.sort()` with no comparator converts each element to a string
and compares the strings by UTF-16 code units.  For natural numbers the string
is the decimal representation without sign or leading zeros.  `decDigitsAux`
computes the little-endian digit list with explicit fuel so that it is
structurally recursive (and hence reduces inside `decide`). -/

def decDigitsAux : Nat → Nat → List Nat
  | 0, _ => []
  | _ + 1, 0 => []
  | fuel + 1, n + 1 => ((n + 1) % 10) :: decDigitsAux fuel ((n + 1) / 10)

/-- Little-endian decimal digits of `n` (empty for `0`). -/
def decDigits (n : Nat) : List Nat := decDigitsAux n n

/-- The character for a single decimal digit. -/
def digitChar : Nat → Char
  | 0 => '0' | 1 => '1' | 2 => '2' | 3 => '3' | 4 => '4'
  | 5 => '5' | 6 => '6' | 7 => '7' | 8 => '8' | 9 => '9'
  | _ => '*'

/-- Decimal string of a natural number, as JS `String(n)` produces. -/
def decStr (n : Nat) : String :=
  if n = 0 then "0" else ((decDigits n).reverse.map digitChar).asString

/-- Value of a little-endian digit list (used only to invert `decDigits`). -/
def ofDigitsLE : List Nat → Nat
  | [] => 0
  | d :: ds => d + 10 * ofDigitsLE ds

/-- `a` precedes-or-equals `b` in JS default sort order: compare the decimal
strings by code units; for ASCII strings this is the lexicographic order on
the underlying character lists. -/
def jsLe (a b : Nat) : Prop := (decStr a).data ≤ (decStr b).data

instance : DecidableRel jsLe := fun a b =>
  inferInstanceAs (Decidable ((decStr a).data ≤ (decStr b).data))

/-- JS `Array.prototype.sort()` on an array of numeric ids.  The ECMAScript
sort is stable, and `jsLe` is a total antisymmetric order (decimal strings of
distinct naturals differ), so every correct sort produces this unique sorted
permutation. -/
def jsSort (l : List Nat) : List Nat := List.insertionSort jsLe l

/-- `Array.prototype.join('-')`. -/
def joinDash (l : List Nat) : String := String.intercalate "-" (l.map decStr)

/-! ### Chat rooms (`chatting.controller.js`) -/

/-- Error conditions thrown by the chatting controller
(`'CHATTING.INVALID_MEMBER'`, `'CHATTING.INVALID_ROOMKEY'`). -/
inductive ChatError
  | INVALID_MEMBER
  | INVALID_ROOMKEY
  deriving DecidableEq, Repr

structure Room where
  roomId : Nat
  roomKey : String
  userIds : List Nat
  deriving DecidableEq, Repr

/-- The chat-side storage: ids of the existing active users, the rooms, and
the next auto-increment room id. -/
structure ChatState where
  users : List Nat
  rooms : List Room
  nextRoomId : Nat
  deriving DecidableEq, Repr

/-- Modelled from the spec: `chatting.service.getRoomByRoomKey` is not under
`src/`; per §4.2 it is the lookup of a room by its derived key. -/
def getRoomByRoomKey (s : ChatState) (roomKey : String) : Option Room :=
  s.rooms.find? (fun r => r.roomKey == roomKey)

/-- Modelled from the spec: `user.service.getUserCountByIds` is not under
`src/`; per §4.2 it counts the existing, active users whose id occurs in the
given list and reports (`isSame`) whether that count equals the list length. -/
def getUserCountByIds (s : ChatState) (ids : List Nat) : Nat × Bool :=
  ((s.users.filter (fun u => ids.contains u)).length,
   (s.users.filter (fun u => ids.contains u)).length == ids.length)

/-- Modelled from the spec: `chatting.service.createRoom` is not under `src/`;
per §3 it creates a room identified by the dash-joined participant list. -/
def createRoom (s : ChatState) (ids : List Nat) : Room × ChatState :=
  (⟨s.nextRoomId, joinDash ids, ids⟩,
   { s with rooms := s.rooms ++ [⟨s.nextRoomId, joinDash ids, ids⟩],
            nextRoomId := s.nextRoomId + 1 })

/-- Lines 117-119 of `chatting.controller.js`: coerce the ids, sort them with
the default JS sort, and append the requester when absent
(`if (userIds.indexOf(userId) === -1) userIds.push(userId)`; the membership
test runs on the already-sorted array). -/
def resolveParticipants (userIds : List Nat) (me : Nat) : List Nat :=
  if me ∈ jsSort userIds then jsSort userIds else jsSort userIds ++ [me]

/-- Lines 117-122 of `chatting.controller.js`: participant resolution, the
minimum-size check (`if (userIds.length < 2) throw ...`), and the dash-joined
key (`userIds.join('-')`). -/
def deriveRoomKey (userIds : List Nat) (me : Nat) :
    Except ChatError (List Nat × String) :=
  if (resolveParticipants userIds me).length < 2 then .error .INVALID_MEMBER
  else .ok (resolveParticipants userIds me, joinDash (resolveParticipants userIds me))

/-- The spec's `resolveRoomKey` as the code realises it on a participant list
that already contains the requester: JS-sort, then dash-join. -/
def resolveRoomKey (participantIds : List Nat) : String :=
  joinDash (jsSort participantIds)

/-- Definition following the SPEC's words (§4.2: "numerically sort participant
identifiers ascending, join with `-`"), for comparison with `resolveRoomKey`. -/
def specResolveRoomKey (participantIds : List Nat) : String :=
  joinDash (List.insertionSort (· ≤ ·) participantIds)

/-- Lines 115-138 of `chatting.controller.js` (`joinRoom`): derive the key,
look the room up, and only when absent verify the users and create the room. -/
def joinRoom (s : ChatState) (userIds : List Nat) (me : Nat) :
    Except ChatError (Room × ChatState) :=
  match deriveRoomKey userIds me with
  | .error e => .error e
  | .ok (ids, roomKey) =>
    match getRoomByRoomKey s roomKey with
    | some chattingRoom => .ok (chattingRoom, s)
    | none =>
      if (getUserCountByIds s ids).2 then
        .ok (createRoom s ids)
      else .error .INVALID_MEMBER

/-! ### Chat messages (`loadMessage`, lines 246-269) -/

structure ChatMessage where
  messageId : Nat
  roomId : Nat
  createdAt : Nat
  deriving DecidableEq, Repr

/-- Descending feed order (§4.3, §5): more recent `createdAt` first; equal
timestamps tie-break by the monotonically assigned id, larger id first. -/
def descLe (m₁ m₂ : ChatMessage) : Prop :=
  m₂.createdAt < m₁.createdAt
  ∨ (m₂.createdAt = m₁.createdAt ∧ m₂.messageId ≤ m₁.messageId)

instance : DecidableRel descLe := fun m₁ m₂ =>
  inferInstanceAs (Decidable (m₂.createdAt < m₁.createdAt
    ∨ (m₂.createdAt = m₁.createdAt ∧ m₂.messageId ≤ m₁.messageId)))

/-- Modelled from the spec: `chatting.service.loadMessage` is not under
`src/`; per §4.3 it serves the room's messages most-recent-first as a finite,
restartable offset/limit slice. -/
def pageMessages (msgs : List ChatMessage) (roomId limit offset : Nat) :
    List ChatMessage :=
  ((List.insertionSort descLe (msgs.filter (fun m => m.roomId == roomId))).drop
    offset).take limit

/-- Lines 246-269 of `chatting.controller.js` (`loadMessage`): default
`limit = 30, offset = 0`, reject unknown room keys
(`'CHATTING.INVALID_ROOMKEY'`), then delegate to the message ledger. -/
def loadMessage (s : ChatState) (msgs : List ChatMessage) (roomKey : String)
    (limit? offset? : Option Nat) : Except ChatError (List ChatMessage) :=
  match getRoomByRoomKey s roomKey with
  | none => .error .INVALID_ROOMKEY
  | some chattingRoom =>
    .ok (pageMessages msgs chattingRoom.roomId (limit?.getD 30) (offset?.getD 0))

/-! ### Order-request state machine (`shopper.controller.js` and the runner
controller) -/

inductive RequestStatus
  | REQUESTING
  | MATCHED
  | MATCH_FAIL
  | DELIVERED_REQUEST
  | DELIVERED
  | REVIEW_REQUEST
  | REVIEWED
  deriving DecidableEq, Repr

inductive RequestError
  | NotFound
  | InvalidTransition
  deriving DecidableEq, Repr

/-- Modelled from the spec: the §4.1 transition table (directed, no
self-loops; MATCH_FAIL and REVIEWED have no outbound edges). -/
def allowedTransition : RequestStatus → RequestStatus → Bool
  | .REQUESTING, .MATCHED => true
  | .REQUESTING, .MATCH_FAIL => true
  | .MATCHED, .DELIVERED_REQUEST => true
  | .MATCHED, .MATCH_FAIL => true
  | .DELIVERED_REQUEST, .DELIVERED => true
  | .DELIVERED, .REVIEW_REQUEST => true
  | .REVIEW_REQUEST, .REVIEWED => true
  | _, _ => false

structure OrderRequest where
  requestId : Nat
  orderId : Nat
  counterpartId : Nat
  requestStatus : RequestStatus
  deriving DecidableEq, Repr

/-- Modelled from the spec: `shopper.service.updateOrderRequest` /
`runner.service.updateOrderRequest` are not under `src/`; per §4.1,
`updateRequestStatus` fails with `NotFound` on an unknown id and with
`InvalidTransition` when the new status is not reachable per the table. -/
def updateRequestStatus (requests : List OrderRequest) (requestId : Nat)
    (newStatus : RequestStatus) : Except RequestError (List OrderRequest) :=
  match requests.find? (fun r => r.requestId == requestId) with
  | none => .error .NotFound
  | some r =>
    if allowedTransition r.requestStatus newStatus then
      .ok (requests.map (fun q =>
        if q.requestId == requestId then { q with requestStatus := newStatus } else q))
    else .error .InvalidTransition

/-- The shopper/runner order storage used by request creation. -/
structure ShopperState where
  orders : List Nat
  requests : List OrderRequest
  nextRequestId : Nat
  deriving DecidableEq, Repr

/-- Modelled from the spec and the source TODO at
`shopper.controller.js:421` / its runner counterpart ("같은 주문 요청이 2개
이상 들어올 경우 예외처리 필요", i.e. handling for a second identical request
is still needed): `createOrderRequest` checks the order exists (`NotFound`
otherwise) and then inserts a new REQUESTING request without any duplicate
check. -/
def createOrderRequest (s : ShopperState) (orderId counterpartId : Nat) :
    Except RequestError (OrderRequest × ShopperState) :=
  if orderId ∈ s.orders then
    .ok (⟨s.nextRequestId, orderId, counterpartId, .REQUESTING⟩,
         { s with requests := s.requests ++
                    [⟨s.nextRequestId, orderId, counterpartId, .REQUESTING⟩],
                  nextRequestId := s.nextRequestId + 1 })
  else .error .NotFound

/-! ### Order listing and the `'me'` sentinel (`getOrders`, lines 65-83) -/

structure ShopperOrder where
  orderId : Nat
  shopperId : Nat
  status : String
  deriving DecidableEq, Repr

/-- The `shopperId` query parameter: an explicit id or the `'me'` sentinel. -/
inductive OwnerFilter
  | me
  | byId (v : Nat)
  deriving DecidableEq, Repr

/-- Modelled from the spec: `shopper.service.getOrders` is not under `src/`;
per §4.4 it filters by owner and status, pages with offset/limit, and returns
the total filtered count independent of the page window. -/
def serviceGetOrders (orders : List ShopperOrder) (ownerId : Option Nat)
    (status : Option String) (offset limit : Nat) : List ShopperOrder × Nat :=
  (((orders.filter (fun o =>
      (match ownerId with | none => true | some v => o.shopperId == v)
      && (match status with | none => true | some st => o.status == st))).drop
        offset).take limit,
   (orders.filter (fun o =>
      (match ownerId with | none => true | some v => o.shopperId == v)
      && (match status with | none => true | some st => o.status == st))).length)

/-- Lines 65-83 of `shopper.controller.js` (and the runner counterpart):
`if (req.query.shopperId === 'me') req.query.shopperId = req.decoded.userId`
resolves the sentinel to the caller before delegating to the service;
offset/limit default to 0/20 (§4.4). -/
def getOrders (orders : List ShopperOrder) (shopperId : Option OwnerFilter)
    (status : Option String) (offset? limit? : Option Nat) (caller : Nat) :
    List ShopperOrder × Nat :=
  serviceGetOrders orders
    (match shopperId with
     | none => none
     | some .me => some caller
     | some (.byId v) => some v)
    status (offset?.getD 0) (limit?.getD 20)

/-! ### Support lemmas: the decimal string map is injective -/

theorem ofDigitsLE_decDigitsAux : ∀ (fuel n : Nat), n ≤ fuel →
    ofDigitsLE (decDigitsAux fuel n) = n
  | 0, n, h => by
    simp only [Nat.le_zero] at h
    subst h; rfl
  | fuel + 1, 0, _ => rfl
  | fuel + 1, n + 1, h => by
    have hdiv : (n + 1) / 10 ≤ fuel := by
      have : (n + 1) / 10 < n + 1 := Nat.div_lt_self (Nat.succ_pos n) (by omega)
      omega
    show ((n + 1) % 10) + 10 * ofDigitsLE (decDigitsAux fuel ((n + 1) / 10)) = n + 1
    rw [ofDigitsLE_decDigitsAux fuel ((n + 1) / 10) hdiv]
    exact Nat.mod_add_div (n + 1) 10

theorem ofDigitsLE_decDigits (n : Nat) : ofDigitsLE (decDigits n) = n :=
  ofDigitsLE_decDigitsAux n n (Nat.le_refl n)

theorem decDigits_injective : Function.Injective decDigits := by
  intro a b h
  have := congrArg ofDigitsLE h
  rwa [ofDigitsLE_decDigits, ofDigitsLE_decDigits] at this

theorem decDigitsAux_lt_ten : ∀ (fuel n d : Nat), d ∈ decDigitsAux fuel n → d < 10
  | 0, _, _, h => by simp [decDigitsAux] at h
  | _ + 1, 0, _, h => by simp [decDigitsAux] at h
  | fuel + 1, n + 1, d, h => by
    simp only [decDigitsAux, List.mem_cons] at h
    rcases h with h | h
    · subst h; exact Nat.mod_lt _ (by omega)
    · exact decDigitsAux_lt_ten fuel ((n + 1) / 10) d h

theorem decDigits_lt_ten {n d : Nat} (h : d ∈ decDigits n) : d < 10 :=
  decDigitsAux_lt_ten n n d h

theorem digitChar_inj_aux : ∀ d₁ < 10, ∀ d₂ < 10,
    digitChar d₁ = digitChar d₂ → d₁ = d₂ := by decide

theorem digitChar_inj {d₁ d₂ : Nat} (h₁ : d₁ < 10) (h₂ : d₂ < 10)
    (h : digitChar d₁ = digitChar d₂) : d₁ = d₂ :=
  digitChar_inj_aux d₁ h₁ d₂ h₂ h

theorem map_digitChar_inj : ∀ {l₁ l₂ : List Nat}, (∀ d ∈ l₁, d < 10) →
    (∀ d ∈ l₂, d < 10) → l₁.map digitChar = l₂.map digitChar → l₁ = l₂
  | [], [], _, _, _ => rfl
  | [], _ :: _, _, _, h => by simp at h
  | _ :: _, [], _, _, h => by simp at h
  | a :: l₁, b :: l₂, hb₁, hb₂, h => by
    simp only [List.map_cons, List.cons.injEq] at h
    have ha := digitChar_inj (hb₁ a (List.mem_cons_self a l₁))
      (hb₂ b (List.mem_cons_self b l₂)) h.1
    have hl := map_digitChar_inj (fun d hd => hb₁ d (List.mem_cons_of_mem a hd))
      (fun d hd => hb₂ d (List.mem_cons_of_mem b hd)) h.2
    rw [ha, hl]

theorem decStr_injective : Function.Injective decStr := by
  intro a b h
  unfold decStr at h
  by_cases ha : a = 0 <;> by_cases hb : b = 0
  · rw [ha, hb]
  all_goals simp only [ha, hb, if_pos, if_neg, if_true, if_false] at h
  · exfalso
    have hdata := congrArg String.data h
    simp only [String.data, List.asString] at hdata
    have hmap : (decDigits b).reverse.map digitChar = List.map digitChar [0] := hdata.symm
    have hdig : (decDigits b).reverse = [0] := by
      refine map_digitChar_inj ?_ ?_ hmap
      · intro d hd
        exact decDigits_lt_ten (List.mem_reverse.mp hd)
      · intro d hd
        simp only [List.mem_singleton] at hd
        omega
    have hzero : decDigits b = [0] := by
      have := congrArg List.reverse hdig
      simpa using this
    have := congrArg ofDigitsLE hzero
    rw [ofDigitsLE_decDigits] at this
    simp [ofDigitsLE] at this
    exact hb this
  · exfalso
    have hdata := congrArg String.data h
    simp only [String.data, List.asString] at hdata
    have hmap : (decDigits a).reverse.map digitChar = List.map digitChar [0] := hdata
    have hdig : (decDigits a).reverse = [0] := by
      refine map_digitChar_inj ?_ ?_ hmap
      · intro d hd
        exact decDigits_lt_ten (List.mem_reverse.mp hd)
      · intro d hd
        simp only [List.mem_singleton] at hd
        omega
    have hzero : decDigits a = [0] := by
      have := congrArg List.reverse hdig
      simpa using this
    have := congrArg ofDigitsLE hzero
    rw [ofDigitsLE_decDigits] at this
    simp [ofDigitsLE] at this
    exact ha this
  · have hdata := congrArg String.data h
    simp only [String.data, List.asString] at hdata
    have hrev : (decDigits a).reverse = (decDigits b).reverse :=
      map_digitChar_inj (fun d hd => decDigits_lt_ten (List.mem_reverse.mp hd))
        (fun d hd => decDigits_lt_ten (List.mem_reverse.mp hd)) hdata
    exact decDigits_injective (List.reverse_injective hrev)

/-! ### Support lemmas: the JS sort order -/

instance : IsTotal Nat jsLe := ⟨fun a b => le_total (decStr a).data (decStr b).data⟩

instance : IsTrans Nat jsLe := ⟨fun _ _ _ h₁ h₂ => le_trans h₁ h₂⟩

instance : IsAntisymm Nat jsLe := ⟨fun a b h₁ h₂ => by
  have hdata : (decStr a).data = (decStr b).data := le_antisymm h₁ h₂
  exact decStr_injective (String.toList_inj.mp hdata)⟩

instance : IsRefl Nat jsLe := ⟨fun a => le_refl (decStr a).data⟩

theorem jsSort_perm (l : List Nat) : List.Perm (jsSort l) l :=
  List.perm_insertionSort jsLe l

theorem jsSort_sorted (l : List Nat) : List.Sorted jsLe (jsSort l) :=
  List.sorted_insertionSort jsLe l

theorem jsSort_perm_invariant {l₁ l₂ : List Nat} (h : List.Perm l₁ l₂) :
    jsSort l₁ = jsSort l₂ :=
  List.eq_of_perm_of_sorted ((jsSort_perm l₁).trans (h.trans (jsSort_perm l₂).symm))
    (jsSort_sorted l₁) (jsSort_sorted l₂)

/-! ### Support lemmas: `joinRoom` -/

theorem mem_jsSort_iff (userIds : List Nat) (me : Nat) :
    me ∈ jsSort userIds ↔ me ∈ userIds :=
  (jsSort_perm userIds).mem_iff

theorem resolveParticipants_nodup {userIds : List Nat} (me : Nat)
    (h : userIds.Nodup) : (resolveParticipants userIds me).Nodup := by
  unfold resolveParticipants
  have hs : (jsSort userIds).Nodup := ((jsSort_perm userIds).nodup_iff).mpr h
  by_cases hm : me ∈ jsSort userIds
  · rw [if_pos hm]; exact hs
  · rw [if_neg hm]
    refine hs.append (List.nodup_singleton me) ?_
    intro a ha hb
    simp only [List.mem_singleton] at hb
    subst hb
    exact hm ha

theorem getUserCountByIds_isSame_iff (s : ChatState) (ids : List Nat) :
    (getUserCountByIds s ids).2 = true
      ↔ (getUserCountByIds s ids).1 = ids.length := by
  unfold getUserCountByIds
  simp

theorem joinRoom_eq (s : ChatState) (userIds : List Nat) (me : Nat) :
    joinRoom s userIds me =
      if (resolveParticipants userIds me).length < 2 then .error .INVALID_MEMBER
      else
        match getRoomByRoomKey s (joinDash (resolveParticipants userIds me)) with
        | some chattingRoom => .ok (chattingRoom, s)
        | none =>
          if (getUserCountByIds s (resolveParticipants userIds me)).2 then
            .ok (createRoom s (resolveParticipants userIds me))
          else .error .INVALID_MEMBER := by
  unfold joinRoom deriveRoomKey
  by_cases hl : (resolveParticipants userIds me).length < 2
  · rw [if_pos hl, if_pos hl]
  · rw [if_neg hl, if_neg hl]

/-! ### C1: canonicality of the room key -/

/-- C1 counterexample: for the participant set {2, 10} the code's key is
`"10-2"` — the JS default sort compares decimal strings, so `"10" < "2"` —
not the numerically ascending `"2-10"` the claim requires. -/
theorem resolveRoomKey_numeric_counterexample :
    resolveRoomKey [2, 10] = "10-2" ∧ specResolveRoomKey [2, 10] = "2-10"
    ∧ resolveRoomKey [2, 10] ≠ specResolveRoomKey [2, 10] := by decide

/-- C1 (amended): `resolveRoomKey` returns the identifiers sorted in the JS
default sort order — lexicographically by decimal string representation, not
numerically — and joined with '-'.  It is still permutation-invariant:
`resolveRoomKey(P) = resolveRoomKey(permutation(P))` for every participant
list, and on the single-digit example both {3,1,2} and {2,3,1} yield
`"1-2-3"`. -/
theorem resolveRoomKey_canonical :
    (∀ l₁ l₂ : List Nat, List.Perm l₁ l₂ → resolveRoomKey l₁ = resolveRoomKey l₂)
    ∧ (∀ l : List Nat, List.Sorted jsLe (jsSort l) ∧ List.Perm (jsSort l) l
        ∧ resolveRoomKey l = joinDash (jsSort l))
    ∧ resolveRoomKey [3, 1, 2] = "1-2-3" ∧ resolveRoomKey [2, 3, 1] = "1-2-3" := by
  refine ⟨fun l₁ l₂ h => ?_, fun l => ⟨jsSort_sorted l, jsSort_perm l, rfl⟩,
    by decide, by decide⟩
  unfold resolveRoomKey
  rw [jsSort_perm_invariant h]

theorem resolveRoomKey_canonical_witness :
    List.Perm [3, 1, 2] [2, 3, 1]
    ∧ resolveRoomKey [3, 1, 2] = resolveRoomKey [2, 3, 1] :=
  ⟨by decide, resolveRoomKey_canonical.1 [3, 1, 2] [2, 3, 1] (by decide)⟩

/-! ### C4: the requester is appended, not canonically merged -/

/-- C4 counterexample: with requester 1 absent from [2, 3] the code pushes the
requester after sorting and derives key `"2-3-1"`, while the same participant
set given as [1, 2, 3] derives `"1-2-3"` — the two calls do not resolve to
the same room key. -/
theorem requester_append_counterexample :
    deriveRoomKey [2, 3] 1 = .ok ([2, 3, 1], "2-3-1")
    ∧ deriveRoomKey [1, 2, 3] 1 = .ok ([1, 2, 3], "1-2-3")
    ∧ ("2-3-1" : String) ≠ "1-2-3" := by decide

/-- C4 (amended): when the requester is absent it is indeed added to the
participants, but it is appended after the sorted list, so the requester is
always a member of the resulting room while the derived key is the sorted
other participants followed by the requester — in general a different
`roomKey` than the one derived when the input already contains the
requester. -/
theorem resolveParticipants_requester (userIds : List Nat) (me : Nat) :
    me ∈ resolveParticipants userIds me
    ∧ (me ∉ userIds → resolveParticipants userIds me = jsSort userIds ++ [me])
    ∧ (me ∈ userIds → resolveParticipants userIds me = jsSort userIds) := by
  unfold resolveParticipants
  by_cases h : me ∈ jsSort userIds
  · refine ⟨by rw [if_pos h]; exact h, ?_, fun _ => by rw [if_pos h]⟩
    intro hn
    exact absurd ((mem_jsSort_iff userIds me).mp h) hn
  · refine ⟨?_, fun _ => by rw [if_neg h], ?_⟩
    · rw [if_neg h]
      exact List.mem_append_right _ (List.mem_singleton.mpr rfl)
    · intro hm
      exact absurd ((mem_jsSort_iff userIds me).mpr hm) h

theorem resolveParticipants_requester_witness :
    (1 ∉ ([2, 3] : List Nat))
    ∧ resolveParticipants [2, 3] 1 = jsSort [2, 3] ++ [1]
    ∧ 1 ∈ resolveParticipants [2, 3] 1 :=
  ⟨by decide, (resolveParticipants_requester [2, 3] 1).2.1 (by decide),
   (resolveParticipants_requester [2, 3] 1).1⟩

/-! ### C10: participant identifiers are not deduplicated -/

/-- C10: duplicate ids are kept: they count toward the minimum-membership
size check — so the key derivation succeeds rather than raising
InvalidMembership — and they appear repeated in the list whose dash-join is
the derived roomKey (e.g. [5,5] with requester 5 yields `"5-5"`). -/
theorem deriveRoomKey_no_dedup (userIds : List Nat) (me x : Nat)
    (hx : 2 ≤ userIds.count x) :
    2 ≤ (resolveParticipants userIds me).count x
    ∧ deriveRoomKey userIds me
        = .ok (resolveParticipants userIds me,
               joinDash (resolveParticipants userIds me)) := by
  have hcount : 2 ≤ (jsSort userIds).count x := by
    rw [(jsSort_perm userIds).count_eq]
    exact hx
  have hcount' : 2 ≤ (resolveParticipants userIds me).count x := by
    unfold resolveParticipants
    by_cases h : me ∈ jsSort userIds
    · rw [if_pos h]; exact hcount
    · rw [if_neg h, List.count_append]; omega
  have hlen : 2 ≤ (resolveParticipants userIds me).length :=
    le_trans hcount' (List.count_le_length x _)
  refine ⟨hcount', ?_⟩
  unfold deriveRoomKey
  rw [if_neg (by omega)]

theorem deriveRoomKey_no_dedup_witness :
    2 ≤ ([5, 5] : List Nat).count 5
    ∧ (2 ≤ (resolveParticipants [5, 5] 5).count 5
        ∧ deriveRoomKey [5, 5] 5
            = .ok (resolveParticipants [5, 5] 5,
                   joinDash (resolveParticipants [5, 5] 5)))
    ∧ deriveRoomKey [5, 5] 5 = .ok ([5, 5], "5-5") :=
  ⟨by decide, deriveRoomKey_no_dedup [5, 5] 5 5 (by decide), by decide⟩

/-! ### C5: minimum membership -/

/-- C5: on a duplicate-free participant list (a set), if the resolved
participant set — requester included — has fewer than 2 distinct members,
`joinRoom` fails with `CHATTING.INVALID_MEMBER` before any lookup or
creation; in particular {7} with requester 7 fails. -/
theorem joinRoom_min_membership (s : ChatState) (userIds : List Nat) (me : Nat)
    (hnd : userIds.Nodup)
    (hcard : (resolveParticipants userIds me).toFinset.card < 2) :
    joinRoom s userIds me = .error .INVALID_MEMBER := by
  have hlen : (resolveParticipants userIds me).length < 2 := by
    rwa [List.toFinset_card_of_nodup (resolveParticipants_nodup me hnd)] at hcard
  rw [joinRoom_eq, if_pos hlen]

theorem joinRoom_min_membership_witness :
    ([7] : List Nat).Nodup
    ∧ (resolveParticipants [7] 7).toFinset.card < 2
    ∧ joinRoom ⟨[7], [], 0⟩ [7] 7 = .error .INVALID_MEMBER :=
  ⟨by decide, by decide,
   joinRoom_min_membership ⟨[7], [], 0⟩ [7] 7 (by decide) (by decide)⟩

/-! ### C7: member verification before creation -/

/-- C7: before `joinRoom` creates a room it verifies — via
`getUserCountByIds` — that every id of the resolved participant list belongs
to an existing, active user: whenever a room is actually created the matched
count equals the list length, and whenever the key was derived, no room with
that key exists and the count differs from the list length, the call fails
with `CHATTING.INVALID_MEMBER` and no room is created. -/
theorem joinRoom_member_verification (s : ChatState) (userIds : List Nat) (me : Nat) :
    (∀ room s', joinRoom s userIds me = .ok (room, s') → s'.rooms ≠ s.rooms →
      (getUserCountByIds s (resolveParticipants userIds me)).1
        = (resolveParticipants userIds me).length)
    ∧ (∀ ids key, deriveRoomKey userIds me = .ok (ids, key) →
        getRoomByRoomKey s key = none →
        (getUserCountByIds s ids).1 ≠ ids.length →
        joinRoom s userIds me = .error .INVALID_MEMBER) := by
  constructor
  · intro room s' hok hne
    rw [joinRoom_eq] at hok
    by_cases hl : (resolveParticipants userIds me).length < 2
    · rw [if_pos hl] at hok
      exact absurd hok (by simp)
    · rw [if_neg hl] at hok
      cases hr : getRoomByRoomKey s (joinDash (resolveParticipants userIds me)) with
      | some r =>
        rw [hr] at hok
        have hinj := Except.ok.inj hok
        have hss : s = s' := congrArg Prod.snd hinj
        exact absurd (by rw [hss]) hne
      | none =>
        rw [hr] at hok
        by_cases hc : (getUserCountByIds s (resolveParticipants userIds me)).2 = true
        · exact (getUserCountByIds_isSame_iff s _).mp hc
        · rw [if_neg hc] at hok
          exact absurd hok (by simp)
  · intro ids key hd hr hc
    unfold deriveRoomKey at hd
    by_cases hl : (resolveParticipants userIds me).length < 2
    · rw [if_pos hl] at hd
      exact absurd hd (by simp)
    · rw [if_neg hl] at hd
      have hinj := Except.ok.inj hd
      have hids : resolveParticipants userIds me = ids := congrArg Prod.fst hinj
      have hkey : joinDash (resolveParticipants userIds me) = key := congrArg Prod.snd hinj
      rw [joinRoom_eq, if_neg hl, hkey, hr, if_neg ?_]
      rw [hids]
      intro hbeq
      exact hc ((getUserCountByIds_isSame_iff s ids).mp hbeq)

theorem joinRoom_member_verification_witness :
    deriveRoomKey [1, 2] 1 = .ok ([1, 2], "1-2")
    ∧ getRoomByRoomKey ⟨[1], [], 0⟩ "1-2" = none
    ∧ (getUserCountByIds ⟨[1], [], 0⟩ [1, 2]).1 ≠ ([1, 2] : List Nat).length
    ∧ joinRoom ⟨[1], [], 0⟩ [1, 2] 1 = .error .INVALID_MEMBER :=
  ⟨by decide, by decide, by decide,
   (joinRoom_member_verification ⟨[1], [], 0⟩ [1, 2] 1).2 [1, 2] "1-2"
     (by decide) (by decide) (by decide)⟩

/-! ### C3: idempotent room creation -/

/-- C3: `joinRoom` is idempotent: a successful call creates at most one room,
and an immediately repeated call with the same participants and requester
finds the room by its derived key — the lookup precedes creation — and
returns the same room and state. -/
theorem joinRoom_idempotent (s : ChatState) (userIds : List Nat) (me : Nat)
    (room : Room) (s' : ChatState)
    (h : joinRoom s userIds me = .ok (room, s')) :
    joinRoom s' userIds me = .ok (room, s')
    ∧ s'.rooms.length ≤ s.rooms.length + 1 := by
  rw [joinRoom_eq] at h
  rw [joinRoom_eq]
  by_cases hl : (resolveParticipants userIds me).length < 2
  · rw [if_pos hl] at h
    exact absurd h (by simp)
  · rw [if_neg hl] at h
    rw [if_neg hl]
    cases hr : getRoomByRoomKey s (joinDash (resolveParticipants userIds me)) with
    | some r =>
      rw [hr] at h
      have hinj := Except.ok.inj h
      have hroom : r = room := congrArg Prod.fst hinj
      have hss : s = s' := congrArg Prod.snd hinj
      rw [← hss, hr, hroom]
      exact ⟨rfl, Nat.le_succ _⟩
    | none =>
      rw [hr] at h
      by_cases hc : (getUserCountByIds s (resolveParticipants userIds me)).2 = true
      · rw [if_pos hc] at h
        unfold createRoom at h
        have hinj := Except.ok.inj h
        rw [Prod.mk.injEq] at hinj
        obtain ⟨hroom, hs'⟩ := hinj
        subst hroom
        subst hs'
        have hfind : getRoomByRoomKey
            { s with
                rooms := s.rooms ++
                  [⟨s.nextRoomId, joinDash (resolveParticipants userIds me),
                    resolveParticipants userIds me⟩],
                nextRoomId := s.nextRoomId + 1 }
            (joinDash (resolveParticipants userIds me))
            = some ⟨s.nextRoomId, joinDash (resolveParticipants userIds me),
                resolveParticipants userIds me⟩ := by
          unfold getRoomByRoomKey at hr ⊢
          simp only [List.find?_append, hr, Option.none_or]
          simp [List.find?]
        rw [hfind]
        refine ⟨rfl, ?_⟩
        simp
      · rw [if_neg hc] at h
        exact absurd h (by simp)

theorem joinRoom_idempotent_witness :
    joinRoom ⟨[1, 2], [], 0⟩ [1, 2] 1
      = .ok (⟨0, "1-2", [1, 2]⟩, ⟨[1, 2], [⟨0, "1-2", [1, 2]⟩], 1⟩)
    ∧ (joinRoom ⟨[1, 2], [⟨0, "1-2", [1, 2]⟩], 1⟩ [1, 2] 1
        = .ok (⟨0, "1-2", [1, 2]⟩, ⟨[1, 2], [⟨0, "1-2", [1, 2]⟩], 1⟩)
      ∧ (⟨[1, 2], [⟨0, "1-2", [1, 2]⟩], 1⟩ : ChatState).rooms.length
          ≤ (⟨[1, 2], [], 0⟩ : ChatState).rooms.length + 1) :=
  ⟨by decide,
   joinRoom_idempotent ⟨[1, 2], [], 0⟩ [1, 2] 1 ⟨0, "1-2", [1, 2]⟩
     ⟨[1, 2], [⟨0, "1-2", [1, 2]⟩], 1⟩ (by decide)⟩

/-! ### C2: transition legality and terminal immutability -/

theorem allowedTransition_terminal (T : RequestStatus) :
    allowedTransition .MATCH_FAIL T = false ∧ allowedTransition .REVIEWED T = false := by
  cases T <;> exact ⟨rfl, rfl⟩

/-- C2: `updateRequestStatus` on an existing request succeeds exactly on the
edges of the §4.1 transition table — REQUESTING→{MATCHED, MATCH_FAIL},
MATCHED→{DELIVERED_REQUEST, MATCH_FAIL}, DELIVERED_REQUEST→DELIVERED,
DELIVERED→REVIEW_REQUEST, REVIEW_REQUEST→REVIEWED — fails with
`InvalidTransition` on every other pair, and in particular always fails once
the request is in MATCH_FAIL or REVIEWED. -/
theorem updateRequestStatus_transitions (requests : List OrderRequest)
    (requestId : Nat) (newStatus : RequestStatus) (r : OrderRequest)
    (hfind : requests.find? (fun q => q.requestId == requestId) = some r) :
    ((∃ requests', updateRequestStatus requests requestId newStatus = .ok requests')
        ↔ allowedTransition r.requestStatus newStatus = true)
    ∧ (allowedTransition r.requestStatus newStatus = false →
        updateRequestStatus requests requestId newStatus = .error .InvalidTransition)
    ∧ (∀ S T : RequestStatus, allowedTransition S T = true ↔
        (S, T) ∈ ([(.REQUESTING, .MATCHED), (.REQUESTING, .MATCH_FAIL),
          (.MATCHED, .DELIVERED_REQUEST), (.MATCHED, .MATCH_FAIL),
          (.DELIVERED_REQUEST, .DELIVERED), (.DELIVERED, .REVIEW_REQUEST),
          (.REVIEW_REQUEST, .REVIEWED)] : List (RequestStatus × RequestStatus)))
    ∧ ((r.requestStatus = .MATCH_FAIL ∨ r.requestStatus = .REVIEWED) →
        updateRequestStatus requests requestId newStatus = .error .InvalidTransition) := by
  have hupd : updateRequestStatus requests requestId newStatus =
      if allowedTransition r.requestStatus newStatus then
        .ok (requests.map (fun q =>
          if q.requestId == requestId then { q with requestStatus := newStatus }
          else q))
      else .error .InvalidTransition := by
    unfold updateRequestStatus
    rw [hfind]
  have hfail : allowedTransition r.requestStatus newStatus = false →
      updateRequestStatus requests requestId newStatus = .error .InvalidTransition := by
    intro ha
    rw [hupd, if_neg (by simp [ha])]
  refine ⟨⟨?_, ?_⟩, hfail, ?_, ?_⟩
  · rintro ⟨requests', hok⟩
    rw [hupd] at hok
    by_cases ha : allowedTransition r.requestStatus newStatus = true
    · exact ha
    · rw [if_neg ha] at hok
      exact absurd hok (by simp)
  · intro ha
    rw [hupd, if_pos ha]
    exact ⟨_, rfl⟩
  · intro S T
    cases S <;> cases T <;> simp [allowedTransition]
  · intro hterm
    apply hfail
    rcases hterm with h | h
    · rw [h]
      exact (allowedTransition_terminal newStatus).1
    · rw [h]
      exact (allowedTransition_terminal newStatus).2

theorem updateRequestStatus_transitions_witness :
    (([⟨1, 1, 5, .REQUESTING⟩] : List OrderRequest).find?
        (fun q => q.requestId == 1) = some ⟨1, 1, 5, .REQUESTING⟩)
    ∧ updateRequestStatus [⟨1, 1, 5, .REQUESTING⟩] 1 .MATCHED
        = .ok [⟨1, 1, 5, .MATCHED⟩]
    ∧ updateRequestStatus [⟨1, 1, 5, .REQUESTING⟩] 1 .DELIVERED
        = .error .InvalidTransition
    ∧ ((∃ requests', updateRequestStatus [⟨1, 1, 5, .REQUESTING⟩] 1 .MATCHED
          = .ok requests')
        ↔ allowedTransition (⟨1, 1, 5, .REQUESTING⟩ : OrderRequest).requestStatus
            .MATCHED = true) :=
  ⟨by decide, by decide, by decide,
   (updateRequestStatus_transitions [⟨1, 1, 5, .REQUESTING⟩] 1 .MATCHED
      ⟨1, 1, 5, .REQUESTING⟩ (by decide)).1⟩

/-! ### C6: duplicate active requests are not prevented (source TODO) -/

/-- C6 (code bug acknowledged by the source TODO): with an active REQUESTING
request for order 1 and counterpart 5 already stored, a second
`createOrderRequest(1, 5)` succeeds — no `Conflict` is raised — and the store
ends with two active requests for the same (order, counterpart) pair. -/
theorem createOrderRequest_duplicate_not_prevented :
    createOrderRequest ⟨[1], [⟨0, 1, 5, .REQUESTING⟩], 1⟩ 1 5
      = .ok (⟨1, 1, 5, .REQUESTING⟩,
             ⟨[1], [⟨0, 1, 5, .REQUESTING⟩, ⟨1, 1, 5, .REQUESTING⟩], 2⟩)
    ∧ (([⟨0, 1, 5, .REQUESTING⟩, ⟨1, 1, 5, .REQUESTING⟩] : List OrderRequest).filter
        (fun q => q.orderId == 1 && q.counterpartId == 5
          && !(q.requestStatus == .MATCH_FAIL))).length = 2 := by decide

/-! ### C8: the `'me'` sentinel -/

/-- C8: the `'me'` owner filter is resolved to the caller's id before the
service query: listing with `'me'` returns exactly the same result as listing
with the caller's explicit id, and every order returned under the `'me'`
filter is owned by the caller. -/
theorem getOrders_me_sentinel (orders : List ShopperOrder) (status : Option String)
    (offset? limit? : Option Nat) (caller : Nat) :
    getOrders orders (some .me) status offset? limit? caller
      = getOrders orders (some (.byId caller)) status offset? limit? caller
    ∧ (∀ o ∈ (getOrders orders (some .me) status offset? limit? caller).1,
        o.shopperId = caller) := by
  refine ⟨rfl, ?_⟩
  intro o ho
  unfold getOrders serviceGetOrders at ho
  simp only at ho
  have h₁ := List.mem_of_mem_take ho
  have h₂ := List.mem_of_mem_drop h₁
  have h₃ := List.of_mem_filter h₂
  simp only [Bool.and_eq_true, beq_iff_eq] at h₃
  exact h₃.1

theorem getOrders_me_sentinel_witness :
    (⟨1, 42, "ONGOING"⟩ : ShopperOrder)
        ∈ (getOrders [⟨1, 42, "ONGOING"⟩] (some .me) none none none 42).1
    ∧ (⟨1, 42, "ONGOING"⟩ : ShopperOrder).shopperId = 42 :=
  ⟨by decide,
   (getOrders_me_sentinel [⟨1, 42, "ONGOING"⟩] none none none 42).2
     ⟨1, 42, "ONGOING"⟩ (by decide)⟩

/-! ### C9: pagination stability of the message feed -/

theorem orderedInsert_append_of_not_le {x : ChatMessage} :
    ∀ {l : List ChatMessage}, (∀ y ∈ l, ¬ descLe x y) →
      List.orderedInsert descLe x l = l ++ [x]
  | [], _ => rfl
  | y :: l, h => by
    rw [List.orderedInsert, if_neg (h y (List.mem_cons_self y l)),
      orderedInsert_append_of_not_le (fun z hz => h z (List.mem_cons_of_mem y hz))]
    rfl

/-- C9: with five messages appended in order (strictly increasing creation
times) in one room, `page(limit=2, offset=0)` returns the two most recent,
`page(limit=2, offset=2)` the next two — four distinct messages in strictly
descending timestamp order, whose concatenation is exactly the first four of
the feed (no overlap, no gap) — and the `loadMessage` controller defaults to
`limit=30, offset=0`. -/
theorem pageMessages_stable (m₁ m₂ m₃ m₄ m₅ : ChatMessage) (R : Nat)
    (hr₁ : m₁.roomId = R) (hr₂ : m₂.roomId = R) (hr₃ : m₃.roomId = R)
    (hr₄ : m₄.roomId = R) (hr₅ : m₅.roomId = R)
    (h₁₂ : m₁.createdAt < m₂.createdAt) (h₂₃ : m₂.createdAt < m₃.createdAt)
    (h₃₄ : m₃.createdAt < m₄.createdAt) (h₄₅ : m₄.createdAt < m₅.createdAt) :
    pageMessages [m₁, m₂, m₃, m₄, m₅] R 2 0 = [m₅, m₄]
    ∧ pageMessages [m₁, m₂, m₃, m₄, m₅] R 2 2 = [m₃, m₂]
    ∧ List.Chain' (fun a b => b.createdAt < a.createdAt) [m₅, m₄, m₃, m₂]
    ∧ List.Pairwise (fun a b => a ≠ b) [m₅, m₄, m₃, m₂]
    ∧ pageMessages [m₁, m₂, m₃, m₄, m₅] R 2 0
        ++ pageMessages [m₁, m₂, m₃, m₄, m₅] R 2 2
        = pageMessages [m₁, m₂, m₃, m₄, m₅] R 4 0
    ∧ (∀ (s : ChatState) (key : String) (room : Room),
        getRoomByRoomKey s key = some room →
        loadMessage s [m₁, m₂, m₃, m₄, m₅] key none none
          = .ok (pageMessages [m₁, m₂, m₃, m₄, m₅] room.roomId 30 0)) := by
  have notle : ∀ a b : ChatMessage, a.createdAt < b.createdAt → ¬ descLe a b := by
    intro a b hab hd
    rcases hd with h | ⟨h, _⟩ <;> omega
  have hfilter : ([m₁, m₂, m₃, m₄, m₅].filter (fun m => m.roomId == R))
      = [m₁, m₂, m₃, m₄, m₅] := by
    rw [List.filter_eq_self]
    intro a ha
    simp only [List.mem_cons, List.not_mem_nil, or_false] at ha
    rcases ha with rfl | rfl | rfl | rfl | rfl <;>
      simp [hr₁, hr₂, hr₃, hr₄, hr₅]
  have e4 : List.orderedInsert descLe m₄ [m₅] = [m₅, m₄] := by
    refine orderedInsert_append_of_not_le ?_
    intro y hy
    simp only [List.mem_singleton] at hy
    subst hy
    exact notle _ _ h₄₅
  have e3 : List.orderedInsert descLe m₃ [m₅, m₄] = [m₅, m₄, m₃] := by
    refine orderedInsert_append_of_not_le ?_
    intro y hy
    simp only [List.mem_cons, List.mem_singleton, List.not_mem_nil, or_false] at hy
    rcases hy with rfl | rfl
    · exact notle _ _ (lt_trans h₃₄ h₄₅)
    · exact notle _ _ h₃₄
  have e2 : List.orderedInsert descLe m₂ [m₅, m₄, m₃] = [m₅, m₄, m₃, m₂] := by
    refine orderedInsert_append_of_not_le ?_
    intro y hy
    simp only [List.mem_cons, List.not_mem_nil, or_false] at hy
    rcases hy with rfl | rfl | rfl
    · exact notle _ _ (lt_trans h₂₃ (lt_trans h₃₄ h₄₅))
    · exact notle _ _ (lt_trans h₂₃ h₃₄)
    · exact notle _ _ h₂₃
  have e1 : List.orderedInsert descLe m₁ [m₅, m₄, m₃, m₂] = [m₅, m₄, m₃, m₂, m₁] := by
    refine orderedInsert_append_of_not_le ?_
    intro y hy
    simp only [List.mem_cons, List.not_mem_nil, or_false] at hy
    rcases hy with rfl | rfl | rfl | rfl
    · exact notle _ _ (lt_trans h₁₂ (lt_trans h₂₃ (lt_trans h₃₄ h₄₅)))
    · exact notle _ _ (lt_trans h₁₂ (lt_trans h₂₃ h₃₄))
    · exact notle _ _ (lt_trans h₁₂ h₂₃)
    · exact notle _ _ h₁₂
  have hsort : List.insertionSort descLe [m₁, m₂, m₃, m₄, m₅]
      = [m₅, m₄, m₃, m₂, m₁] := by
    simp only [List.insertionSort]
    rw [show List.orderedInsert descLe m₅ [] = [m₅] from rfl, e4, e3, e2, e1]
  have hne : ∀ a b : ChatMessage, b.createdAt < a.createdAt → a ≠ b := by
    intro a b hlt hab
    rw [hab] at hlt
    exact absurd hlt (lt_irrefl _)
  refine ⟨?_, ?_, ?_, ?_, ?_, ?_⟩
  · unfold pageMessages
    rw [hfilter, hsort]
    rfl
  · unfold pageMessages
    rw [hfilter, hsort]
    rfl
  · exact List.Chain'.cons h₄₅ (List.Chain'.cons h₃₄ (List.Chain'.cons h₂₃
      (List.chain'_singleton m₂)))
  · refine List.Pairwise.cons ?_ (List.Pairwise.cons ?_ (List.Pairwise.cons ?_
      (List.pairwise_singleton _ m₂)))
    · intro b hb
      simp only [List.mem_cons, List.not_mem_nil, or_false] at hb
      rcases hb with rfl | rfl | rfl
      · exact hne _ _ h₄₅
      · exact hne _ _ (lt_trans h₃₄ h₄₅)
      · exact hne _ _ (lt_trans h₂₃ (lt_trans h₃₄ h₄₅))
    · intro b hb
      simp only [List.mem_cons, List.not_mem_nil, or_false] at hb
      rcases hb with rfl | rfl
      · exact hne _ _ h₃₄
      · exact hne _ _ (lt_trans h₂₃ h₃₄)
    · intro b hb
      simp only [List.mem_cons, List.not_mem_nil, or_false] at hb
      rcases hb with rfl
      exact hne _ _ h₂₃
  · unfold pageMessages
    rw [hfilter, hsort]
    rfl
  · intro s key room hlook
    unfold loadMessage
    rw [hlook]
    rfl

theorem pageMessages_stable_witness :
    ((⟨1, 9, 10⟩ : ChatMessage).createdAt < (⟨2, 9, 20⟩ : ChatMessage).createdAt)
    ∧ pageMessages [⟨1, 9, 10⟩, ⟨2, 9, 20⟩, ⟨3, 9, 30⟩, ⟨4, 9, 40⟩, ⟨5, 9, 50⟩] 9 2 0
        = [⟨5, 9, 50⟩, ⟨4, 9, 40⟩]
    ∧ pageMessages [⟨1, 9, 10⟩, ⟨2, 9, 20⟩, ⟨3, 9, 30⟩, ⟨4, 9, 40⟩, ⟨5, 9, 50⟩] 9 2 2
        = [⟨3, 9, 30⟩, ⟨2, 9, 20⟩] :=
  ⟨by decide,
   (pageMessages_stable ⟨1, 9, 10⟩ ⟨2, 9, 20⟩ ⟨3, 9, 30⟩ ⟨4, 9, 40⟩ ⟨5, 9, 50⟩ 9
     rfl rfl rfl rfl rfl (by decide) (by decide) (by decide) (by decide)).1,
   (pageMessages_stable ⟨1, 9, 10⟩ ⟨2, 9, 20⟩ ⟨3, 9, 30⟩ ⟨4, 9, 40⟩ ⟨5, 9, 50⟩ 9
     rfl rfl rfl rfl rfl (by decide) (by decide) (by decide) (by decide)).2.1⟩

end RoadRunner
